import Mathlib

/-
Shallow embedding of the worker-latency-profile core of the
cluster-kube-controller-manager-operator repository:

* `pkg/operator/latencyprofilecontroller/latencyprofilecontroller.go`
  (`updateLatencyProfileSyncedStatus`, `configMatchesControllerManagerArguments`)
* `pkg/operator/latencyprofilecontroller/status_utils.go`
  (`setWLPStatusCondition`, `findWLPStatusCondition`, `updateConfigNodeStatus`)
* `pkg/operator/configobservation/node/observe_latency_profile.go`
  (`ObserveNodeMonitorGracePeriod`)

Go maps are embedded as association lists with unique keys, looked up by
first match; machine time (`time.Now()`) is an explicit `now : Nat`
parameter; fallible calls return `Except`/`Option`; the external stores
(node lister, configmap store, operator state) are explicit inputs.
-/

namespace KCMO

/-- Status values of a `metav1.Condition`: `True`, `False`, `Unknown`. -/
inductive CStatus
  | ctrue
  | cfalse
  | cunknown
deriving DecidableEq, Repr

/-- A `metav1.Condition` restricted to the fields the controller reads or
writes: `Type`, `Status`, `Reason`, `Message`, `LastTransitionTime`
(timestamps as natural numbers). -/
structure Condition where
  type : String
  status : CStatus
  reason : String
  message : String
  lastTransitionTime : Nat
deriving DecidableEq, Repr

/-- Constant `controllerManagerConfigMapName = "config"`. -/
def controllerManagerConfigMapName : String := "config"

/-- Constant `controllerManagerConfigMapKey = "config.yaml"`. -/
def controllerManagerConfigMapKey : String := "config.yaml"

/-- Constant `nodeMonitorGracePeriodArgument`. -/
def nodeMonitorGracePeriodArgument : String := "node-monitor-grace-period"

/-- Constant `reasonLatencyProfileUpdateTriggered`. -/
def reasonLatencyProfileUpdateTriggered : String := "ProfileUpdateTriggered"

/-- Constant `reasonLatencyProfileUpdated`. -/
def reasonLatencyProfileUpdated : String := "ProfileUpdated"

/-- Constant `reasonLatencyProfileEmpty`. -/
def reasonLatencyProfileEmpty : String := "ProfileEmpty"

/-- `apiconfigv1.KubeControllerManagerDegraded` condition type. -/
def kubeControllerManagerDegraded : String := "KubeControllerManagerDegraded"

/-- `apiconfigv1.KubeControllerManagerProgressing` condition type. -/
def kubeControllerManagerProgressing : String := "KubeControllerManagerProgressing"

/-- `apiconfigv1.KubeControllerManagerComplete` condition type. -/
def kubeControllerManagerComplete : String := "KubeControllerManagerComplete"

/-- `apiconfigv1.DefaultUpdateDefaultReaction` profile selector token. -/
def DefaultUpdateDefaultReaction : String := "Default"

/-- `apiconfigv1.MediumUpdateAverageReaction` profile selector token. -/
def MediumUpdateAverageReaction : String := "MediumUpdateAverageReaction"

/-- `apiconfigv1.LowUpdateSlowReaction` profile selector token. -/
def LowUpdateSlowReaction : String := "LowUpdateSlowReaction"

/-- `apiconfigv1.DefaultNodeMonitorGracePeriod.String()` (40 seconds). -/
def DefaultNodeMonitorGracePeriod : String := "40s"

/-- `apiconfigv1.MediumNodeMonitorGracePeriod.String()` (2 minutes). -/
def MediumNodeMonitorGracePeriod : String := "2m0s"

/-- `apiconfigv1.LowNodeMonitorGracePeriod.String()` (5 minutes). -/
def LowNodeMonitorGracePeriod : String := "5m0s"

/-- Go map indexing `m[k]` for a map embedded as an association list with
unique keys: first entry with the key wins. -/
def lookupAssoc {α : Type} : List (String × α) → String → Option α
  | [], _ => none
  | (k, v) :: rest, key => if k = key then some v else lookupAssoc rest key

/-- `controlplanev1.KubeControllerManagerConfig`, of which only the
`ExtendedArguments` field (`map[string]Arguments`, `Arguments = []string`)
is read by this core. -/
structure KubeControllerManagerConfig where
  extendedArguments : List (String × List String)
deriving DecidableEq, Repr

/-- Value stored under a configmap data key: either bytes that
`json.Unmarshal` decodes into a `KubeControllerManagerConfig`, or bytes on
which decoding fails. -/
inductive ConfigMapData
  | decodable (cfg : KubeControllerManagerConfig)
  | undecodable
deriving DecidableEq, Repr

/-- A `corev1.ConfigMap`: name plus `Data` map. -/
structure ConfigMap where
  name : String
  data : List (String × ConfigMapData)
deriving DecidableEq, Repr

/-- Errors of `configMatchesControllerManagerArguments`: the
`config.yaml` key absent from the configmap data, or a JSON decode
failure of the embedded config. -/
inductive MatchError
  | keyMissing (configMapName : String)
  | decodeFailed
deriving DecidableEq, Repr

/-- The `for arg := range argValMap` loop body of
`configMatchesControllerManagerArguments`: an absent argument returns
`false` at once; a present argument with a non-empty value list whose
first value differs from the expected one returns `false` at once; a
present argument with an empty value list is skipped. -/
def argsMatchLoop (extendedArguments : List (String × List String)) :
    List (String × String) → Bool
  | [] => true
  | (arg, expectedValue) :: rest =>
    match lookupAssoc extendedArguments arg with
    | none => false
    | some [] => argsMatchLoop extendedArguments rest
    | some (v :: _) =>
      if v = expectedValue then argsMatchLoop extendedArguments rest else false

/-- `configMatchesControllerManagerArguments`: fetch `config.yaml` from the
configmap data (error when absent), JSON-decode it into a
`KubeControllerManagerConfig` (error on decode failure), then run the
argument loop over `argValMap`. -/
def configMatchesControllerManagerArguments (configMap : ConfigMap)
    (argValMap : List (String × String)) : Except MatchError Bool :=
  match lookupAssoc configMap.data controllerManagerConfigMapKey with
  | none => .error (.keyMissing configMap.name)
  | some .undecodable => .error .decodeFailed
  | some (.decodable cfg) => .ok (argsMatchLoop cfg.extendedArguments argValMap)

/-- Outcome of a point read through a Kubernetes lister or client:
found, a not-found error (`errors.IsNotFound`), or any other error. -/
inductive GetResult (α : Type)
  | found (a : α)
  | notFound
  | otherError (msg : String)
deriving DecidableEq, Repr

/-- The `config/v1` `Node` object, of which the controller reads
`Spec.WorkerLatencyProfile`. -/
structure ConfigNode where
  workerLatencyProfile : String
deriving DecidableEq, Repr

/-- Errors surfaced by one `updateLatencyProfileSyncedStatus` cycle. -/
inductive SyncError
  | nodeGetError (msg : String)
  | operatorStateError (msg : String)
  | configMapNotFound (name : String)
  | matchError (e : MatchError)
deriving DecidableEq, Repr

/-- Observable outcome of one `updateLatencyProfileSyncedStatus` cycle:
`write` is the (degraded, progressing, completed) condition triple passed
to `updateConfigNodeStatus` (none when that call is never reached), and
`error` is the cycle's returned error. -/
structure SyncResult where
  write : Option (Condition × Condition × Condition)
  error : Option SyncError
deriving DecidableEq, Repr

/-- The `switch configNodeObj.Spec.WorkerLatencyProfile` block that fills
`desiredControllerManagerArgumentVals`. The Go switch has no default
case, so any unrecognized selector leaves the map empty. -/
def resolveDesiredArgs (profile : String) : List (String × String) :=
  if profile = DefaultUpdateDefaultReaction then
    [(nodeMonitorGracePeriodArgument, DefaultNodeMonitorGracePeriod)]
  else if profile = MediumUpdateAverageReaction then
    [(nodeMonitorGracePeriodArgument, MediumNodeMonitorGracePeriod)]
  else if profile = LowUpdateSlowReaction then
    [(nodeMonitorGracePeriodArgument, LowNodeMonitorGracePeriod)]
  else
    []

/-- Deduplication of the node statuses' current revisions, preserving
first-seen order (the `revisionMap`/`uniqueRevisions` block). -/
def uniqueRevisions (revisions : List Nat) : List Nat :=
  revisions.foldl (fun acc r => if r ∈ acc then acc else acc ++ [r]) []

/-- `fmt.Sprintf("%s-%d", controllerManagerConfigMapName, revision)`. -/
def revisionConfigMapName (revision : Nat) : String :=
  controllerManagerConfigMapName ++ "-" ++ toString revision

/-- One iteration of the per-revision loop: fetch the configmap named
`config-<revision>` from the target namespace (a miss is an error) and
run `configMatchesControllerManagerArguments` on it. -/
def revisionCheck (configMaps : List (String × ConfigMap))
    (desired : List (String × String)) (revision : Nat) : Except SyncError Bool :=
  match lookupAssoc configMaps (revisionConfigMapName revision) with
  | none => .error (.configMapNotFound (revisionConfigMapName revision))
  | some cm =>
    match configMatchesControllerManagerArguments cm desired with
    | .error e => .error (.matchError e)
    | .ok b => .ok b

/-- The `for _, revision := range uniqueRevisions` loop: any error from a
fetch or match aborts the cycle; the first non-matching revision sets
`revisionsHaveSynced = false` and breaks out of the loop. -/
def checkRevisionsLoop (configMaps : List (String × ConfigMap))
    (desired : List (String × String)) : List Nat → Except SyncError Bool
  | [] => .ok true
  | rev :: rest =>
    match revisionCheck configMaps desired rev with
    | .error e => .error e
    | .ok true => checkRevisionsLoop configMaps desired rest
    | .ok false => .ok false

/-- `updateLatencyProfileSyncedStatus` as a function of its three external
reads: the `config/v1/node/cluster` point read, the static pod operator
state (its node statuses' current revisions), and the configmap store of
the target namespace. -/
def updateLatencyProfileSyncedStatus (configNode : GetResult ConfigNode)
    (operatorState : Except String (List Nat))
    (configMaps : List (String × ConfigMap)) : SyncResult :=
  match configNode with
  | .otherError m => { write := none, error := some (.nodeGetError m) }
  | .notFound => { write := none, error := none }
  | .found node =>
    if node.workerLatencyProfile = "" then
      { write := some
          (⟨kubeControllerManagerDegraded, .cfalse, reasonLatencyProfileEmpty,
            "worker latency profile not set on cluster", 0⟩,
           ⟨kubeControllerManagerProgressing, .cfalse, reasonLatencyProfileEmpty, "", 0⟩,
           ⟨kubeControllerManagerComplete, .cfalse, reasonLatencyProfileEmpty, "", 0⟩),
        error := none }
    else
      let desired := resolveDesiredArgs node.workerLatencyProfile
      match operatorState with
      | .error m => { write := none, error := some (.operatorStateError m) }
      | .ok revisions =>
        match checkRevisionsLoop configMaps desired (uniqueRevisions revisions) with
        | .error e => { write := none, error := some e }
        | .ok true =>
          { write := some
              (⟨kubeControllerManagerDegraded, .cfalse, reasonLatencyProfileUpdated, "", 0⟩,
               ⟨kubeControllerManagerProgressing, .cfalse, reasonLatencyProfileUpdated, "", 0⟩,
               ⟨kubeControllerManagerComplete, .ctrue, reasonLatencyProfileUpdated,
                "all kube-controller-manager(s) have updated latency profile", 0⟩),
            error := none }
        | .ok false =>
          { write := some
              (⟨kubeControllerManagerDegraded, .cfalse, reasonLatencyProfileUpdateTriggered, "", 0⟩,
               ⟨kubeControllerManagerProgressing, .ctrue, reasonLatencyProfileUpdateTriggered,
                "kube-controller-manager(s) are updating latency profile", 0⟩,
               ⟨kubeControllerManagerComplete, .cfalse, reasonLatencyProfileUpdateTriggered, "", 0⟩),
            error := none }

/-- `findWLPStatusCondition`: first condition in the list with the given
type, if any. -/
def findWLPStatusCondition (conditions : List Condition) (conditionType : String) :
    Option Condition :=
  conditions.find? (fun c => c.type = conditionType)

/-- Core of `setWLPStatusCondition` on a (non-nil) condition list, as a
pure list transformer. The Go code finds the first condition of the new
condition's type and mutates it in place: status and transition timestamp
are written only when the status differs, reason and message always; when
no condition of that type exists, the new condition is appended with its
transition timestamp set to `now`. -/
def setWLPStatusConditionList (conditions : List Condition)
    (newCondition : Condition) (now : Nat) : List Condition :=
  match conditions with
  | [] => [{ newCondition with lastTransitionTime := now }]
  | c :: rest =>
    if c.type = newCondition.type then
      (if c.status = newCondition.status then
        { c with reason := newCondition.reason, message := newCondition.message }
      else
        { c with status := newCondition.status,
                 reason := newCondition.reason,
                 message := newCondition.message,
                 lastTransitionTime := now }) :: rest
    else
      c :: setWLPStatusConditionList rest newCondition now

/-- `setWLPStatusCondition` at the pointer level: the argument is
`none` for a nil `*[]metav1.Condition` and `some cs` for a pointer to the
caller's slice; the result is the condition list the caller observes after
the call. When the pointer is nil the Go code reassigns the local pointer
variable to the address of a fresh empty slice, so every subsequent write
lands in a local slice the caller never sees. -/
def setWLPStatusCondition (conditions : Option (List Condition))
    (newCondition : Condition) (now : Nat) : Option (List Condition) :=
  match conditions with
  | none =>
    let _ := setWLPStatusConditionList [] newCondition now
    none
  | some cs => some (setWLPStatusConditionList cs newCondition now)

/-- The `config/v1` `Node` status document: the worker-latency-profile
condition list plus an opaque stand-in for every other status field
(which the merge must leave untouched and the deep-equality compares). -/
structure NodeStatusDoc where
  conditions : List Condition
  otherStatusFields : String
deriving DecidableEq, Repr

/-- The merge step of `updateConfigNodeStatus`: deep-copy the read status
and apply `setWLPStatusCondition` for each new condition in order (the
pointer `&newStatus.WorkerLatencyProfileStatus.Conditions` is never nil,
so the list-level function applies). -/
def mergeConditions (status : NodeStatusDoc) (newConditions : List Condition)
    (now : Nat) : NodeStatusDoc :=
  NodeStatusDoc.mk
    (newConditions.foldl (fun cs c => setWLPStatusConditionList cs c now) status.conditions)
    status.otherStatusFields

/-- Observable outcome of one `updateConfigNodeStatus` attempt: the
returned `updated` flag, the status written through `UpdateStatus` (none
when no write was issued), and the returned error. -/
structure CommitResult where
  updated : Bool
  written : Option NodeStatusDoc
  error : Option String
deriving DecidableEq, Repr

/-- One attempt of the `updateConfigNodeStatus` retry body: re-read the
node, merge the new conditions into a deep copy of its status, skip the
write when the result is deep-equal to what was read, otherwise write the
new status. A lister error (not-found included) is returned with
`updated = false`. -/
def updateConfigNodeStatus (readResult : GetResult NodeStatusDoc)
    (newConditions : List Condition) (now : Nat) : CommitResult :=
  match readResult with
  | .notFound =>
    { updated := false, written := none, error := some "nodes \x22cluster\x22 not found" }
  | .otherError m => { updated := false, written := none, error := some m }
  | .found oldStatus =>
    let newStatus := mergeConditions oldStatus newConditions now
    if newStatus = oldStatus then { updated := false, written := none, error := none }
    else { updated := true, written := some newStatus, error := none }

/-- Values of the untyped `map[string]interface\x7b\x7d` configuration
documents handled by the config observer: strings, arrays, nested maps,
and an opaque stand-in for every other JSON value. -/
inductive JSONv
  | str (s : String)
  | arr (xs : List JSONv)
  | obj (fields : List (String × JSONv))
  | other
deriving Repr

/-- A top-level untyped configuration document. -/
abbrev ObservedConfig := List (String × JSONv)

/-- `unstructured.NestedFieldNoCopy`: walk the path through nested maps;
a missing key yields not-found (`ok none`), a non-map intermediate value
yields an error, the value at the final key is returned as-is. -/
def nestedFieldNoCopy : ObservedConfig → List String → Except String (Option JSONv)
  | m, [] => .ok (some (.obj m))
  | m, [k] => .ok (lookupAssoc m k)
  | m, k :: rest =>
    match lookupAssoc m k with
    | none => .ok none
    | some (.obj m2) => nestedFieldNoCopy m2 rest
    | some _ => .error "value at path is not a map"

/-- Conversion of an untyped value to `[]string` as
`unstructured.NestedStringSlice` performs it: the value must be an array
whose elements are all strings. -/
def asStringSlice : JSONv → Option (List String)
  | .arr xs =>
    xs.foldr
      (fun x acc =>
        match x, acc with
        | .str s, some l => some (s :: l)
        | _, _ => none)
      (some [])
  | _ => none

/-- `unstructured.NestedStringSlice`: nested lookup followed by the
string-slice conversion; a missing key is not-found, a wrong-typed value
is an error. -/
def nestedStringSlice (m : ObservedConfig) (path : List String) :
    Except String (Option (List String)) :=
  match nestedFieldNoCopy m path with
  | .error e => .error e
  | .ok none => .ok none
  | .ok (some v) =>
    match asStringSlice v with
    | some l => .ok (some l)
    | none => .error "value at path is not a string slice"

/-- `unstructured.SetNestedStringSlice` applied to a fresh empty map (the
only way the observer uses it): build the nested singleton-map chain along
the path ending in the value (on a fresh map the error branch of the Go
helper is unreachable). -/
def setNestedFresh : List String → JSONv → ObservedConfig
  | [], _ => []
  | [k], v => [(k, v)]
  | k :: rest, v => [(k, JSONv.obj (setNestedFresh rest v))]

/-- `configobserver.Pruned` with a single path: keep only the value found
at that path, rebuilt as a fresh nested chain; when the path is absent or
traversal errors the result is the empty map. -/
def prunedSingle (m : ObservedConfig) (path : List String) : ObservedConfig :=
  match nestedFieldNoCopy m path with
  | .ok (some v) => setNestedFresh path v
  | _ => []

/-- `nodeMonitorGracePeriodPath` from the observer. -/
def nodeMonitorGracePeriodPath : List String :=
  ["extendedArguments", "node-monitor-grace-period"]

/-- Errors appended by `ObserveNodeMonitorGracePeriod`. -/
inductive ObserveError
  | nodeGetError (msg : String)
  | unknownProfile (profile : String)
  | extractError (msg : String)
deriving DecidableEq, Repr

/-- Tail of `ObserveNodeMonitorGracePeriod` once the switch has produced
an observed grace-period value: read the current value from the existing
configuration (an extraction error is recorded but evaluation keeps
going with an empty current value), then either build a fresh config
holding only the observed value (when current and observed differ) or
return the existing configuration. -/
def observeWithValue (existingConfig : ObservedConfig)
    (observedVal : String) : ObservedConfig × List ObserveError :=
  let extracted := nestedStringSlice existingConfig nodeMonitorGracePeriodPath
  let errs : List ObserveError :=
    match extracted with
    | .error e => [.extractError e]
    | .ok _ => []
  let currentSlice : Option (List String) :=
    match extracted with
    | .error _ => none
    | .ok s => s
  let current : String :=
    match currentSlice with
    | some (v :: _) => v
    | _ => ""
  if current ≠ observedVal then
    (setNestedFresh nodeMonitorGracePeriodPath (.arr [.str observedVal]), errs)
  else
    (existingConfig, errs)

/-- Body of `ObserveNodeMonitorGracePeriod` before the deferred prune:
handle the node point read (other errors propagate, not-found is a
no-op), then switch on the worker latency profile; the three known
selectors map to their fixed duration strings, the empty selector returns
the existing configuration, and any other selector is an unknown-profile
error returning the existing configuration. -/
def observeNodeMonitorGracePeriodRaw (nodeGet : GetResult ConfigNode)
    (existingConfig : ObservedConfig) : ObservedConfig × List ObserveError :=
  match nodeGet with
  | .otherError m => (existingConfig, [.nodeGetError m])
  | .notFound => (existingConfig, [])
  | .found configNode =>
    let p := configNode.workerLatencyProfile
    if p = DefaultUpdateDefaultReaction then
      observeWithValue existingConfig DefaultNodeMonitorGracePeriod
    else if p = MediumUpdateAverageReaction then
      observeWithValue existingConfig MediumNodeMonitorGracePeriod
    else if p = LowUpdateSlowReaction then
      observeWithValue existingConfig LowNodeMonitorGracePeriod
    else if p = "" then
      (existingConfig, [])
    else
      (existingConfig, [.unknownProfile p])

/-- `ObserveNodeMonitorGracePeriod` including the deferred
`configobserver.Pruned` call, which applies to every return path. -/
def observeNodeMonitorGracePeriod (nodeGet : GetResult ConfigNode)
    (existingConfig : ObservedConfig) : ObservedConfig × List ObserveError :=
  let raw := observeNodeMonitorGracePeriodRaw nodeGet existingConfig
  (prunedSingle raw.1 nodeMonitorGracePeriodPath, raw.2)

/-- Per-(snapshot, setting) check written from the spec's evaluator
contract: the setting name must be present; an empty value list passes;
otherwise the first value must equal the expected value exactly. Used as
the non-short-circuiting reference for the evaluator. -/
def settingMatches (extendedArguments : List (String × List String))
    (arg expectedValue : String) : Bool :=
  match lookupAssoc extendedArguments arg with
  | none => false
  | some [] => true
  | some (v :: _) => v = expectedValue

/-- Decoded snapshots of a revision list: for each revision in order,
fetch its configmap and decode the embedded config; `none` when any
fetch or decode fails. Harness for relating the short-circuiting loop to
the all-pairs reference. -/
def decodedSnapshots (configMaps : List (String × ConfigMap)) :
    List Nat → Option (List (List (String × List String)))
  | [] => some []
  | rev :: rest =>
    match lookupAssoc configMaps (revisionConfigMapName rev) with
    | none => none
    | some cm =>
      match lookupAssoc cm.data controllerManagerConfigMapKey with
      | some (.decodable cfg) =>
        match decodedSnapshots configMaps rest with
        | some snaps => some (cfg.extendedArguments :: snaps)
        | none => none
      | _ => none

/-- An `operatorv1.OperatorCondition` as written by `sync`. -/
structure OperatorCondition where
  type : String
  status : CStatus
  reason : String
  message : String
deriving DecidableEq, Repr

/-- Body of `sync` after `updateLatencyProfileSyncedStatus` returns:
derive the operational `LatencyProfileControllerDegraded` condition from
the cycle error — True with reason `Error` and the error text on any
failure, False otherwise (`render` models `err.Error()`). -/
def syncDegradedCondition (syncError : Option SyncError)
    (render : SyncError → String) : OperatorCondition :=
  match syncError with
  | none => ⟨"LatencyProfileControllerDegraded", .cfalse, "", ""⟩
  | some e => ⟨"LatencyProfileControllerDegraded", .ctrue, "Error", render e⟩

/-- The three selector tokens the controller's switch recognizes besides
the empty string. -/
def knownProfile (p : String) : Prop :=
  p = DefaultUpdateDefaultReaction ∨ p = MediumUpdateAverageReaction ∨
    p = LowUpdateSlowReaction

instance {ε α : Type} [DecidableEq ε] [DecidableEq α] : DecidableEq (Except ε α) :=
  fun x y =>
    match x, y with
    | .ok a, .ok b =>
      if h : a = b then isTrue (by rw [h])
      else isFalse (by intro hc; cases hc; exact h rfl)
    | .error a, .error b =>
      if h : a = b then isTrue (by rw [h])
      else isFalse (by intro hc; cases hc; exact h rfl)
    | .ok _, .error _ => isFalse (by intro hc; cases hc)
    | .error _, .ok _ => isFalse (by intro hc; cases hc)

/-- The short-circuiting argument loop agrees with evaluating every
setting and conjoining the per-setting checks. -/
lemma argsMatchLoop_eq_all (ext : List (String × List String)) :
    ∀ args : List (String × String),
      argsMatchLoop ext args = args.all (fun p => settingMatches ext p.1 p.2)
  | [] => rfl
  | (arg, expectedValue) :: rest => by
    have ih := argsMatchLoop_eq_all ext rest
    simp only [argsMatchLoop, List.all_cons]
    cases h : lookupAssoc ext arg with
    | none => simp [settingMatches, h]
    | some vs =>
      cases vs with
      | nil => simp [settingMatches, h, ih]
      | cons v vtail =>
        by_cases hv : v = expectedValue
        · simp [settingMatches, h, hv, ih]
        · simp [settingMatches, h, hv]

/-- When every revision's check passes, the revision loop reports `true`. -/
lemma checkRevisionsLoop_all_true (cms : List (String × ConfigMap))
    (desired : List (String × String)) :
    ∀ revs : List Nat, (∀ r ∈ revs, revisionCheck cms desired r = .ok true) →
      checkRevisionsLoop cms desired revs = .ok true
  | [], _ => rfl
  | rev :: rest, h => by
    have hr := h rev (List.mem_cons_self _ _)
    simp only [checkRevisionsLoop, hr]
    exact checkRevisionsLoop_all_true cms desired rest
      (fun r hm => h r (List.mem_cons_of_mem _ hm))

/-- When every revision before `r` passes and the check of `r` errors,
the revision loop reaches `r` and aborts with that error. -/
lemma checkRevisionsLoop_prefix_error (cms : List (String × ConfigMap))
    (desired : List (String × String)) :
    ∀ (done : List Nat) (r : Nat) (rest : List Nat) (e : SyncError),
      (∀ x ∈ done, revisionCheck cms desired x = .ok true) →
      revisionCheck cms desired r = .error e →
      checkRevisionsLoop cms desired (done ++ r :: rest) = .error e
  | [], r, rest, e, _, hr => by
    simp only [List.nil_append, checkRevisionsLoop, hr]
  | d :: done, r, rest, e, h, hr => by
    have hd := h d (List.mem_cons_self _ _)
    simp only [List.cons_append, checkRevisionsLoop, hd]
    exact checkRevisionsLoop_prefix_error cms desired done r rest e
      (fun x hx => h x (List.mem_cons_of_mem _ hx)) hr

/-- When no revision check errors and at least one reports a mismatch,
the revision loop reports `false`. -/
lemma checkRevisionsLoop_ok_false (cms : List (String × ConfigMap))
    (desired : List (String × String)) :
    ∀ revs : List Nat,
      (∀ r ∈ revs, ∃ b, revisionCheck cms desired r = .ok b) →
      (∃ r ∈ revs, revisionCheck cms desired r = .ok false) →
      checkRevisionsLoop cms desired revs = .ok false
  | [], _, hex => absurd hex (by simp)
  | rev :: rest, hall, hex => by
    rcases hall rev (List.mem_cons_self _ _) with ⟨b, hb⟩
    cases b with
    | false => simp only [checkRevisionsLoop, hb]
    | true =>
      simp only [checkRevisionsLoop, hb]
      apply checkRevisionsLoop_ok_false cms desired rest
        (fun r hm => hall r (List.mem_cons_of_mem _ hm))
      rcases hex with ⟨r, hm, hr⟩
      rcases List.mem_cons.mp hm with rfl | hm2
      · rw [hb] at hr
        exact absurd (Except.ok.inj hr) (by decide)
      · exact ⟨r, hm2, hr⟩

/-- On revisions whose configmaps all resolve and decode, the revision
loop computes the conjunction over all decoded snapshots of the
conjunction over all expected settings. -/
lemma checkRevisionsLoop_decoded (cms : List (String × ConfigMap))
    (desired : List (String × String)) :
    ∀ (revs : List Nat) (snaps : List (List (String × List String))),
      decodedSnapshots cms revs = some snaps →
      checkRevisionsLoop cms desired revs
        = .ok (snaps.all fun ext => desired.all fun p => settingMatches ext p.1 p.2)
  | [], snaps, h => by
    simp only [decodedSnapshots] at h
    cases h
    rfl
  | rev :: rest, snaps, h => by
    simp only [decodedSnapshots] at h
    cases hcm : lookupAssoc cms (revisionConfigMapName rev) with
    | none => simp only [hcm] at h; cases h
    | some cm =>
      simp only [hcm] at h
      cases hdata : lookupAssoc cm.data controllerManagerConfigMapKey with
      | none => simp only [hdata] at h; cases h
      | some d =>
        cases d with
        | undecodable => simp only [hdata] at h; cases h
        | decodable cfg =>
          simp only [hdata] at h
          cases hrest : decodedSnapshots cms rest with
          | none => simp only [hrest] at h; cases h
          | some srest =>
            simp only [hrest, Option.some.injEq] at h
            subst h
            have hall := argsMatchLoop_eq_all cfg.extendedArguments desired
            cases hb : argsMatchLoop cfg.extendedArguments desired with
            | false =>
              have hrc : revisionCheck cms desired rev = .ok false := by
                simp only [revisionCheck, hcm,
                  configMatchesControllerManagerArguments, hdata, hb]
              simp only [checkRevisionsLoop, hrc, List.all_cons, ← hall, hb,
                Bool.false_and]
            | true =>
              have hrc : revisionCheck cms desired rev = .ok true := by
                simp only [revisionCheck, hcm,
                  configMatchesControllerManagerArguments, hdata, hb]
              simp only [checkRevisionsLoop, hrc, List.all_cons, ← hall, hb,
                Bool.true_and]
              exact checkRevisionsLoop_decoded cms desired rest srest hrest

/-- With no condition of the new condition's type present, the merge
appends the new condition with its transition timestamp set to `now`. -/
lemma setWLP_append (newCondition : Condition) (now : Nat) :
    ∀ conds : List Condition, (∀ c ∈ conds, c.type ≠ newCondition.type) →
      setWLPStatusConditionList conds newCondition now
        = conds ++ [{ newCondition with lastTransitionTime := now }]
  | [], _ => rfl
  | c :: rest, h => by
    have hc : ¬(c.type = newCondition.type) := h c (List.mem_cons_self _ _)
    simp only [setWLPStatusConditionList, if_neg hc, List.cons_append,
      List.cons.injEq, true_and]
    exact setWLP_append newCondition now rest
      (fun d hd => h d (List.mem_cons_of_mem _ hd))

/-- With the first condition of the new condition's type located, the
merge rewrites exactly that entry: reason and message always, status and
transition timestamp only when the status differs. -/
lemma setWLP_update (newCondition : Condition) (now : Nat) :
    ∀ (pre : List Condition) (c : Condition) (post : List Condition),
      (∀ d ∈ pre, d.type ≠ newCondition.type) → c.type = newCondition.type →
      setWLPStatusConditionList (pre ++ c :: post) newCondition now
        = pre ++ (if c.status = newCondition.status then
                    { c with reason := newCondition.reason,
                             message := newCondition.message }
                  else
                    { c with status := newCondition.status,
                             reason := newCondition.reason,
                             message := newCondition.message,
                             lastTransitionTime := now }) :: post
  | [], c, post, _, hc => by
    simp only [List.nil_append, setWLPStatusConditionList, if_pos hc]
  | d :: pre, c, post, h, hc => by
    have hd : ¬(d.type = newCondition.type) := h d (List.mem_cons_self _ _)
    simp only [List.cons_append, setWLPStatusConditionList, if_neg hd,
      List.cons.injEq, true_and]
    exact setWLP_update newCondition now pre c post
      (fun x hx => h x (List.mem_cons_of_mem _ hx)) hc

/-- The value kept by the single-path prune is rebuilt as the nested
chain along the grace-period path. -/
lemma prunedSingle_shape (m : ObservedConfig) :
    prunedSingle m nodeMonitorGracePeriodPath = []
    ∨ ∃ v, prunedSingle m nodeMonitorGracePeriodPath
        = [("extendedArguments", JSONv.obj [("node-monitor-grace-period", v)])] := by
  unfold prunedSingle
  cases h : nestedFieldNoCopy m nodeMonitorGracePeriodPath with
  | error e => exact Or.inl rfl
  | ok o =>
    cases o with
    | none => exact Or.inl rfl
    | some v => exact Or.inr ⟨v, rfl⟩

/-- C1 (code-bug evidence): with the unrecognized selector value
"BogusValue", one node status at revision 1 and a present, decodable
revision-1 configmap, the reconcile cycle of the latency profile
controller does not surface an UnknownProfile-class error: the profile
switch has no default case, so the expected-settings map silently stays
empty, the evaluation trivially succeeds, and the cycle rewrites the
fleet-convergence ConditionSet with reason ProfileUpdated and
Completed=True while returning no error. The config observer, by
contrast, does surface the unknown-profile error (second conjunct), as
the claim demands of the whole cycle. -/
theorem c1_unknown_profile_falls_back_and_rewrites_conditions :
    updateLatencyProfileSyncedStatus (.found ⟨"BogusValue"⟩) (.ok [1])
        [("config-1", ⟨"config-1",
          [("config.yaml", .decodable ⟨[("node-monitor-grace-period", ["40s"])]⟩)]⟩)]
      = ⟨some
          (⟨kubeControllerManagerDegraded, .cfalse, reasonLatencyProfileUpdated, "", 0⟩,
           ⟨kubeControllerManagerProgressing, .cfalse, reasonLatencyProfileUpdated, "", 0⟩,
           ⟨kubeControllerManagerComplete, .ctrue, reasonLatencyProfileUpdated,
            "all kube-controller-manager(s) have updated latency profile", 0⟩),
          none⟩
    ∧ observeNodeMonitorGracePeriodRaw (.found ⟨"BogusValue"⟩) []
      = ([], [.unknownProfile "BogusValue"]) :=
  ⟨by decide, rfl⟩

/-- C2: over a snapshot configmap whose embedded config decodes, the
evaluator returns `ok false` whenever some required setting name is
absent from the snapshot's extendedArguments, and returns `ok true`
whenever every required name is present with either an empty value list
(no assertion) or a first value string-equal to the expected value. -/
theorem c2_evaluator_absent_fails_empty_value_list_passes
    (configMap : ConfigMap) (cfg : KubeControllerManagerConfig)
    (argValMap : List (String × String))
    (hdecode : lookupAssoc configMap.data controllerManagerConfigMapKey
        = some (.decodable cfg)) :
    ((∃ p ∈ argValMap, lookupAssoc cfg.extendedArguments p.1 = none) →
       configMatchesControllerManagerArguments configMap argValMap = .ok false)
    ∧ ((∀ p ∈ argValMap, ∃ vs, lookupAssoc cfg.extendedArguments p.1 = some vs ∧
          (vs = [] ∨ vs.head? = some p.2)) →
       configMatchesControllerManagerArguments configMap argValMap = .ok true) := by
  have hm : configMatchesControllerManagerArguments configMap argValMap
      = .ok (argsMatchLoop cfg.extendedArguments argValMap) := by
    simp only [configMatchesControllerManagerArguments, hdecode]
  constructor
  · rintro ⟨p, hp, hnone⟩
    rw [hm, argsMatchLoop_eq_all]
    have : ¬(argValMap.all (fun p => settingMatches cfg.extendedArguments p.1 p.2)
        = true) := by
      rw [List.all_eq_true]
      intro hall
      have := hall p hp
      simp [settingMatches, hnone] at this
    simp only [Bool.not_eq_true] at this
    rw [this]
  · intro hall
    rw [hm, argsMatchLoop_eq_all]
    have : argValMap.all (fun p => settingMatches cfg.extendedArguments p.1 p.2)
        = true := by
      rw [List.all_eq_true]
      intro p hp
      rcases hall p hp with ⟨vs, hvs, hv⟩
      cases vs with
      | nil => simp [settingMatches, hvs]
      | cons v vtail =>
        rcases hv with h0 | h0
        · cases h0
        · simp only [List.head?_cons, Option.some.injEq] at h0
          simp [settingMatches, hvs, h0]
    rw [this]

/-- C2 witness: a snapshot with empty extendedArguments fails a required
setting (absent key), while a snapshot carrying the required first value
and a second required key with an empty value list passes. -/
theorem c2_evaluator_witness :
    configMatchesControllerManagerArguments
        ⟨"config-0", [("config.yaml", .decodable ⟨[]⟩)]⟩
        [("bind-address", "0.0.0.0")] = .ok false
    ∧ configMatchesControllerManagerArguments
        ⟨"config-1", [("config.yaml", .decodable
            ⟨[("default-node-monitor-grace-period", ["40s"]),
              ("node-monitor-period", [])]⟩)]⟩
        [("default-node-monitor-grace-period", "40s"), ("node-monitor-period", "5s")]
      = .ok true := by
  constructor
  · exact (c2_evaluator_absent_fails_empty_value_list_passes
      ⟨"config-0", [("config.yaml", .decodable ⟨[]⟩)]⟩ ⟨[]⟩
      [("bind-address", "0.0.0.0")] rfl).1
      ⟨("bind-address", "0.0.0.0"), by decide, rfl⟩
  · refine (c2_evaluator_absent_fails_empty_value_list_passes
      ⟨"config-1", [("config.yaml", .decodable
          ⟨[("default-node-monitor-grace-period", ["40s"]),
            ("node-monitor-period", [])]⟩)]⟩
      ⟨[("default-node-monitor-grace-period", ["40s"]), ("node-monitor-period", [])]⟩
      [("default-node-monitor-grace-period", "40s"), ("node-monitor-period", "5s")]
      rfl).2 ?_
    intro p hp
    rcases List.mem_cons.mp hp with rfl | hp2
    · exact ⟨["40s"], rfl, Or.inr rfl⟩
    · rcases List.mem_cons.mp hp2 with rfl | hp3
      · exact ⟨[], rfl, Or.inl rfl⟩
      · cases hp3

/-- C3: in the status merge, the transition timestamp changes if and only
if the status changes. When no condition of the new condition's type
exists it is appended with timestamp `now`; when the first such condition
has the same status only reason and message are rewritten and the
timestamp is kept; when the status differs, status and timestamp are
rewritten to the new status and `now`. -/
theorem c3_timestamp_changes_iff_status_changes :
    (∀ (conds : List Condition) (newCondition : Condition) (now : Nat),
      (∀ c ∈ conds, c.type ≠ newCondition.type) →
      setWLPStatusConditionList conds newCondition now
        = conds ++ [{ newCondition with lastTransitionTime := now }])
    ∧ (∀ (pre : List Condition) (c : Condition) (post : List Condition)
         (newCondition : Condition) (now : Nat),
      (∀ d ∈ pre, d.type ≠ newCondition.type) → c.type = newCondition.type →
      setWLPStatusConditionList (pre ++ c :: post) newCondition now
        = pre ++ (if c.status = newCondition.status then
                    { c with reason := newCondition.reason,
                             message := newCondition.message }
                  else
                    { c with status := newCondition.status,
                             reason := newCondition.reason,
                             message := newCondition.message,
                             lastTransitionTime := now }) :: post) :=
  ⟨fun conds newCondition now h => setWLP_append newCondition now conds h,
   fun pre c post newCondition now h hc => setWLP_update newCondition now pre c post h hc⟩

/-- C3 witness: a reason/message-only edit keeps the old timestamp 3, a
status flip moves the timestamp to 9, and a fresh append stamps 9. -/
theorem c3_timestamp_witness :
    setWLPStatusConditionList [⟨"T", .ctrue, "r0", "m0", 3⟩] ⟨"T", .ctrue, "r1", "m1", 0⟩ 9
      = [⟨"T", .ctrue, "r1", "m1", 3⟩]
    ∧ setWLPStatusConditionList [⟨"T", .ctrue, "r0", "m0", 3⟩] ⟨"T", .cfalse, "r1", "m1", 0⟩ 9
      = [⟨"T", .cfalse, "r1", "m1", 9⟩]
    ∧ setWLPStatusConditionList [] ⟨"T", .ctrue, "r1", "m1", 0⟩ 9
      = [⟨"T", .ctrue, "r1", "m1", 9⟩] := by
  refine ⟨?_, ?_, ?_⟩
  · have h := c3_timestamp_changes_iff_status_changes.2 []
      ⟨"T", .ctrue, "r0", "m0", 3⟩ [] ⟨"T", .ctrue, "r1", "m1", 0⟩ 9 (by simp) rfl
    simpa using h
  · have h := c3_timestamp_changes_iff_status_changes.2 []
      ⟨"T", .ctrue, "r0", "m0", 3⟩ [] ⟨"T", .cfalse, "r1", "m1", 0⟩ 9 (by simp) rfl
    simpa using h
  · have h := c3_timestamp_changes_iff_status_changes.1 []
      ⟨"T", .ctrue, "r1", "m1", 0⟩ 9 (by simp)
    simpa using h

/-- C4: the condition deriver implements the documented table. Selector
Unset yields Degraded/Progressing/Completed all False with reason
ProfileEmpty; a known set profile whose every unique revision matches
yields Completed True (others False) with reason ProfileUpdated; a known
set profile with every check succeeding and at least one mismatch yields
Progressing True (others False) with reason ProfileUpdateTriggered. -/
theorem c4_condition_deriver_table :
    (∀ (operatorState : Except String (List Nat)) (cms : List (String × ConfigMap)),
      updateLatencyProfileSyncedStatus (.found ⟨""⟩) operatorState cms
        = ⟨some
            (⟨kubeControllerManagerDegraded, .cfalse, reasonLatencyProfileEmpty,
              "worker latency profile not set on cluster", 0⟩,
             ⟨kubeControllerManagerProgressing, .cfalse, reasonLatencyProfileEmpty, "", 0⟩,
             ⟨kubeControllerManagerComplete, .cfalse, reasonLatencyProfileEmpty, "", 0⟩),
           none⟩)
    ∧ (∀ (p : String) (revs : List Nat) (cms : List (String × ConfigMap)),
        knownProfile p →
        (∀ r ∈ uniqueRevisions revs,
            revisionCheck cms (resolveDesiredArgs p) r = .ok true) →
        updateLatencyProfileSyncedStatus (.found ⟨p⟩) (.ok revs) cms
          = ⟨some
              (⟨kubeControllerManagerDegraded, .cfalse, reasonLatencyProfileUpdated, "", 0⟩,
               ⟨kubeControllerManagerProgressing, .cfalse, reasonLatencyProfileUpdated, "", 0⟩,
               ⟨kubeControllerManagerComplete, .ctrue, reasonLatencyProfileUpdated,
                "all kube-controller-manager(s) have updated latency profile", 0⟩),
             none⟩)
    ∧ (∀ (p : String) (revs : List Nat) (cms : List (String × ConfigMap)),
        knownProfile p →
        (∀ r ∈ uniqueRevisions revs,
            ∃ b, revisionCheck cms (resolveDesiredArgs p) r = .ok b) →
        (∃ r ∈ uniqueRevisions revs,
            revisionCheck cms (resolveDesiredArgs p) r = .ok false) →
        updateLatencyProfileSyncedStatus (.found ⟨p⟩) (.ok revs) cms
          = ⟨some
              (⟨kubeControllerManagerDegraded, .cfalse,
                reasonLatencyProfileUpdateTriggered, "", 0⟩,
               ⟨kubeControllerManagerProgressing, .ctrue,
                reasonLatencyProfileUpdateTriggered,
                "kube-controller-manager(s) are updating latency profile", 0⟩,
               ⟨kubeControllerManagerComplete, .cfalse,
                reasonLatencyProfileUpdateTriggered, "", 0⟩),
             none⟩) := by
  refine ⟨fun os cms => rfl, ?_, ?_⟩
  · intro p revs cms hk hall
    have hloop := checkRevisionsLoop_all_true cms (resolveDesiredArgs p)
      (uniqueRevisions revs) hall
    rcases hk with rfl | rfl | rfl <;>
      simp only [updateLatencyProfileSyncedStatus, hloop] <;> rfl
  · intro p revs cms hk hall hex
    have hloop := checkRevisionsLoop_ok_false cms (resolveDesiredArgs p)
      (uniqueRevisions revs) hall hex
    rcases hk with rfl | rfl | rfl <;>
      simp only [updateLatencyProfileSyncedStatus, hloop] <;> rfl

/-- C4 witness: the three end-to-end scenarios at concrete inputs —
selector Unset; selector Default with two revisions both reporting 40s;
selector MediumUpdateAverageReaction with one stale revision at 40s and
one at 2m0s. -/
theorem c4_condition_deriver_witness :
    updateLatencyProfileSyncedStatus (.found ⟨""⟩) (.ok []) []
      = ⟨some
          (⟨kubeControllerManagerDegraded, .cfalse, reasonLatencyProfileEmpty,
            "worker latency profile not set on cluster", 0⟩,
           ⟨kubeControllerManagerProgressing, .cfalse, reasonLatencyProfileEmpty, "", 0⟩,
           ⟨kubeControllerManagerComplete, .cfalse, reasonLatencyProfileEmpty, "", 0⟩),
         none⟩
    ∧ updateLatencyProfileSyncedStatus (.found ⟨"Default"⟩) (.ok [1, 2])
        [("config-1", ⟨"config-1",
          [("config.yaml", .decodable ⟨[("node-monitor-grace-period", ["40s"])]⟩)]⟩),
         ("config-2", ⟨"config-2",
          [("config.yaml", .decodable ⟨[("node-monitor-grace-period", ["40s"])]⟩)]⟩)]
      = ⟨some
          (⟨kubeControllerManagerDegraded, .cfalse, reasonLatencyProfileUpdated, "", 0⟩,
           ⟨kubeControllerManagerProgressing, .cfalse, reasonLatencyProfileUpdated, "", 0⟩,
           ⟨kubeControllerManagerComplete, .ctrue, reasonLatencyProfileUpdated,
            "all kube-controller-manager(s) have updated latency profile", 0⟩),
         none⟩
    ∧ updateLatencyProfileSyncedStatus (.found ⟨"MediumUpdateAverageReaction"⟩) (.ok [1, 2])
        [("config-1", ⟨"config-1",
          [("config.yaml", .decodable ⟨[("node-monitor-grace-period", ["40s"])]⟩)]⟩),
         ("config-2", ⟨"config-2",
          [("config.yaml", .decodable ⟨[("node-monitor-grace-period", ["2m0s"])]⟩)]⟩)]
      = ⟨some
          (⟨kubeControllerManagerDegraded, .cfalse,
            reasonLatencyProfileUpdateTriggered, "", 0⟩,
           ⟨kubeControllerManagerProgressing, .ctrue,
            reasonLatencyProfileUpdateTriggered,
            "kube-controller-manager(s) are updating latency profile", 0⟩,
           ⟨kubeControllerManagerComplete, .cfalse,
            reasonLatencyProfileUpdateTriggered, "", 0⟩),
         none⟩ := by
  refine ⟨c4_condition_deriver_table.1 (.ok []) [], ?_, ?_⟩
  · exact c4_condition_deriver_table.2.1 "Default" [1, 2] _ (Or.inl rfl) (by decide)
  · exact c4_condition_deriver_table.2.2 "MediumUpdateAverageReaction" [1, 2] _
      (Or.inr (Or.inl rfl)) (by decide) (by decide)

/-- C5: the status commit is idempotent — when merging the new conditions
into a deep copy of the freshly read status leaves it deep-equal to the
read status, the commit issues no write, reports `updated = false` and
returns no error. -/
theorem c5_commit_idempotent (oldStatus : NodeStatusDoc)
    (newConditions : List Condition) (now : Nat)
    (h : mergeConditions oldStatus newConditions now = oldStatus) :
    updateConfigNodeStatus (.found oldStatus) newConditions now
      = ⟨false, none, none⟩ := by
  simp only [updateConfigNodeStatus, h, if_pos]

/-- C5 witness: re-committing a condition identical up to the (ignored)
incoming timestamp leaves the status deep-equal, so no write occurs. -/
theorem c5_commit_idempotent_witness :
    updateConfigNodeStatus
      (.found ⟨[⟨"KubeControllerManagerComplete", .ctrue, "ProfileUpdated", "m", 5⟩],
        "untouched"⟩)
      [⟨"KubeControllerManagerComplete", .ctrue, "ProfileUpdated", "m", 0⟩] 9
      = ⟨false, none, none⟩ :=
  c5_commit_idempotent _ _ _ (by decide)

/-- C6: a cycle never both writes the fleet-convergence ConditionSet and
returns an error (first conjunct); when the evaluation loop reaches a
claimed revision whose configmap lookup or decode fails — every earlier
unique revision having matched — the cycle aborts with that error and the
ConditionSet write is never invoked (second conjunct); the failure is
surfaced through the separate operational degraded condition (third
conjunct). -/
theorem c6_error_aborts_cycle_without_write :
    (∀ (cn : GetResult ConfigNode) (os : Except String (List Nat))
       (cms : List (String × ConfigMap)),
      (updateLatencyProfileSyncedStatus cn os cms).write = none
      ∨ (updateLatencyProfileSyncedStatus cn os cms).error = none)
    ∧ (∀ (p : String) (revs : List Nat) (cms : List (String × ConfigMap))
         (done : List Nat) (r : Nat) (rest : List Nat) (e : SyncError),
      p ≠ "" →
      uniqueRevisions revs = done ++ r :: rest →
      (∀ x ∈ done, revisionCheck cms (resolveDesiredArgs p) x = .ok true) →
      revisionCheck cms (resolveDesiredArgs p) r = .error e →
      updateLatencyProfileSyncedStatus (.found ⟨p⟩) (.ok revs) cms
        = ⟨none, some e⟩)
    ∧ (∀ (e : SyncError) (render : SyncError → String),
      (syncDegradedCondition (some e) render).status = .ctrue
      ∧ (syncDegradedCondition none render).status = .cfalse) := by
  refine ⟨?_, ?_, fun e render => ⟨rfl, rfl⟩⟩
  · intro cn os cms
    cases cn with
    | otherError m => exact Or.inl rfl
    | notFound => exact Or.inr rfl
    | found node =>
      by_cases h : node.workerLatencyProfile = ""
      · simp [updateLatencyProfileSyncedStatus, h]
      · cases os with
        | error m => simp [updateLatencyProfileSyncedStatus, h]
        | ok revs =>
          cases hloop : checkRevisionsLoop cms
              (resolveDesiredArgs node.workerLatencyProfile)
              (uniqueRevisions revs) with
          | error e => simp [updateLatencyProfileSyncedStatus, h, hloop]
          | ok b =>
            cases b <;> simp [updateLatencyProfileSyncedStatus, h, hloop]
  · intro p revs cms done r rest e hp hsplit hdone hr
    have hloop : checkRevisionsLoop cms (resolveDesiredArgs p)
        (uniqueRevisions revs) = .error e := by
      rw [hsplit]
      exact checkRevisionsLoop_prefix_error cms (resolveDesiredArgs p)
        done r rest e hdone hr
    simp only [updateLatencyProfileSyncedStatus, if_neg hp, hloop]

/-- C6 witness: selector Default claiming revision 1 while the configmap
store is empty — the lookup misses and the cycle errors with no write. -/
theorem c6_error_aborts_witness :
    updateLatencyProfileSyncedStatus (.found ⟨"Default"⟩) (.ok [1]) []
      = ⟨none, some (.configMapNotFound "config-1")⟩ :=
  c6_error_aborts_cycle_without_write.2.1 "Default" [1] [] [] 1 []
    (.configMapNotFound "config-1") (by decide) rfl (by decide) (by decide)

/-- C7 counterexample: the claim says the config observer returns the
existing configuration unchanged on a not-found node read, but the
deferred prune strips fields outside the grace-period path, so an
existing configuration holding an unrelated field is not returned
unchanged. -/
theorem c7_not_found_counterexample :
    observeNodeMonitorGracePeriod .notFound [("foo", JSONv.str "bar")]
      ≠ ([("foo", JSONv.str "bar")], []) := by
  intro h
  exact absurd (congrArg (fun q => q.1.length) h) (by decide)

/-- C7 (amended): a not-found point read of the "cluster" node is a
benign no-op — the controller cycle performs no status write and returns
no error, and the config observer returns the existing configuration
pruned to the extendedArguments.node-monitor-grace-period path (hence
unchanged only up to that pruning) with no error; any other read failure
is propagated as an error (with no status write, the observer again
returning the pruned existing configuration). -/
theorem c7_not_found_benign_noop_amended :
    (∀ (os : Except String (List Nat)) (cms : List (String × ConfigMap)),
      updateLatencyProfileSyncedStatus .notFound os cms = ⟨none, none⟩)
    ∧ (∀ (m : String) (os : Except String (List Nat))
         (cms : List (String × ConfigMap)),
      updateLatencyProfileSyncedStatus (.otherError m) os cms
        = ⟨none, some (.nodeGetError m)⟩)
    ∧ (∀ existingConfig : ObservedConfig,
      observeNodeMonitorGracePeriod .notFound existingConfig
        = (prunedSingle existingConfig nodeMonitorGracePeriodPath, []))
    ∧ (∀ (m : String) (existingConfig : ObservedConfig),
      observeNodeMonitorGracePeriod (.otherError m) existingConfig
        = (prunedSingle existingConfig nodeMonitorGracePeriodPath, [.nodeGetError m])) :=
  ⟨fun _ _ => rfl, fun _ _ _ => rfl, fun _ => rfl, fun _ _ => rfl⟩

/-- C8: the short-circuiting evaluation equals the non-short-circuiting
reference that checks every (snapshot, setting) pair and conjoins the
results — per snapshot the argument loop equals `all` over the expected
settings, and over a revision list whose snapshots all resolve and
decode, the revision loop equals `all` over all decoded snapshots. -/
theorem c8_short_circuit_equals_all_pairs :
    (∀ (ext : List (String × List String)) (argValMap : List (String × String)),
      argsMatchLoop ext argValMap
        = argValMap.all (fun p => settingMatches ext p.1 p.2))
    ∧ (∀ (cms : List (String × ConfigMap)) (desired : List (String × String))
         (revs : List Nat) (snaps : List (List (String × List String))),
      decodedSnapshots cms revs = some snaps →
      checkRevisionsLoop cms desired revs
        = .ok (snaps.all fun ext => desired.all fun p => settingMatches ext p.1 p.2)) :=
  ⟨fun ext argValMap => argsMatchLoop_eq_all ext argValMap,
   fun cms desired revs snaps h => checkRevisionsLoop_decoded cms desired revs snaps h⟩

/-- C8 witness: two decodable snapshots, one stale, evaluated against the
Medium expectation — the short-circuiting loop verdict equals the
all-pairs conjunction, here `false`. -/
theorem c8_short_circuit_witness :
    checkRevisionsLoop
        [("config-1", ⟨"config-1",
          [("config.yaml", .decodable ⟨[("node-monitor-grace-period", ["40s"])]⟩)]⟩),
         ("config-2", ⟨"config-2",
          [("config.yaml", .decodable ⟨[("node-monitor-grace-period", ["2m0s"])]⟩)]⟩)]
        [("node-monitor-grace-period", "2m0s")] [1, 2]
      = .ok ([[("node-monitor-grace-period", ["40s"])],
              [("node-monitor-grace-period", ["2m0s"])]].all
          fun ext => [("node-monitor-grace-period", "2m0s")].all
            fun p => settingMatches ext p.1 p.2) :=
  c8_short_circuit_equals_all_pairs.2 _ _ [1, 2]
    [[("node-monitor-grace-period", ["40s"])],
     [("node-monitor-grace-period", ["2m0s"])]] rfl

/-- C9: calling setWLPStatusCondition through a nil conditions pointer is
total (no panic in the embedding) and has no observable effect — the
caller's nil list stays nil, while the appended condition lands only in
the dropped local slice (second conjunct shows what that local slice
would have held). -/
theorem c9_nil_conditions_pointer_noop (newCondition : Condition) (now : Nat) :
    setWLPStatusCondition none newCondition now = none
    ∧ setWLPStatusConditionList [] newCondition now
        = [{ newCondition with lastTransitionTime := now }] :=
  ⟨rfl, rfl⟩

/-- C10: for every node read outcome and every existing configuration,
the configuration returned by the observer contains at most the
extendedArguments.node-monitor-grace-period field — the deferred prune
leaves either an empty map or exactly that one nested field. -/
theorem c10_observer_prunes_to_grace_period_field
    (nodeGet : GetResult ConfigNode) (existingConfig : ObservedConfig) :
    (observeNodeMonitorGracePeriod nodeGet existingConfig).1 = []
    ∨ ∃ v, (observeNodeMonitorGracePeriod nodeGet existingConfig).1
        = [("extendedArguments", JSONv.obj [("node-monitor-grace-period", v)])] := by
  have h : (observeNodeMonitorGracePeriod nodeGet existingConfig).1
      = prunedSingle (observeNodeMonitorGracePeriodRaw nodeGet existingConfig).1
          nodeMonitorGracePeriodPath := rfl
  rw [h]
  exact prunedSingle_shape _

end KCMO
